import Mathlib

/-!
Verification of the cf-conference signaling relay (Cloudflare Worker, D1-backed
variant of `src/cf-video-conf/src/index.ts`) and of the host-side WebRTC state
machine (`src/cf-video-conf/public/host.js`).

The relay state is the D1 database of `schema.sql`: a `peers` table
(`peer_id` primary key, `joined_at`, `last_seen`) and a `messages` table
(`id` autoincrement, `peer_id`, `type`, `data`, `timestamp`).  Timestamps are
JavaScript `Date.now()` millisecond values, modelled as `Int`.  Each D1 call
can fail; a `DbFaults` record says which underlying storage operation throws,
so that the `try`/`catch` structure of the handlers can be followed exactly.
-/

namespace Relay

/-- A row of the `peers` table (`schema.sql`). -/
structure Peer where
  peer_id : String
  joined_at : Int
  last_seen : Int
deriving DecidableEq, Repr

/-- The `type` column of the `messages` table:
`CHECK (type IN ('offer', 'answer', 'candidate'))`. -/
inductive MsgType where
  | offer
  | answer
  | candidate
deriving DecidableEq, Repr

/-- A row of the `messages` table (`schema.sql`); `id` is the
`INTEGER PRIMARY KEY AUTOINCREMENT` column. -/
structure Message where
  id : Nat
  peer_id : String
  type : MsgType
  data : String
  timestamp : Int
deriving DecidableEq, Repr

/-- The D1 database: both tables, plus the next autoincrement id.
Rows are kept in insertion order. -/
structure DB where
  peers : List Peer
  messages : List Message
  nextId : Nat
deriving DecidableEq, Repr

/-- Which underlying D1 statement throws during a request.  One flag per
prepared statement of `index.ts`; `false` everywhere means a fault-free run. -/
structure DbFaults where
  failAddPeer : Bool
  failCleanupPeers : Bool
  failCount : Bool
  failInsert : Bool
  failDeleteOldMessages : Bool
  failUpdateLastSeen : Bool
  failQuery : Bool
deriving DecidableEq, Repr

deriving instance DecidableEq for Except

/-- A fault-free run: no storage operation throws. -/
def noFaults : DbFaults := ⟨false, false, false, false, false, false, false⟩

/-- The row as returned by the delivery query
`SELECT type, data, peer_id as fromPeerId, timestamp FROM messages ...`. -/
structure MessageOut where
  type : MsgType
  data : String
  fromPeerId : String
  timestamp : Int
deriving DecidableEq, Repr

/-- Responses of the worker: HTTP status plus body. -/
inductive RespBody where
  | joinOk (isInitiator : Bool) (peerCount : Nat)
  | sendOk
  | msgs (messages : List MessageOut) (timestamp : Int)
  | err (text : String)
deriving DecidableEq, Repr

/-- An HTTP response of the worker. -/
structure Response where
  status : Nat
  body : RespBody
deriving DecidableEq, Repr

/-- Model of `addPeer` (index.ts): `INSERT OR REPLACE INTO peers (peer_id, joined_at,
last_seen) VALUES (?, ?, ?)` bound to `(peerId, now, now)`.  The primary-key
replace removes any existing row with the same `peer_id`. -/
def addPeer (peerId : String) (now : Int) (db : DB) : DB :=
  { db with peers :=
      db.peers.filter (fun p => decide (p.peer_id ≠ peerId)) ++
        [{ peer_id := peerId, joined_at := now, last_seen := now }] }

/-- Model of `updatePeerLastSeen` (index.ts): `UPDATE peers SET last_seen = ? WHERE
peer_id = ?` bound to `(Date.now(), peerId)`. -/
def updatePeerLastSeen (peerId : String) (now : Int) (db : DB) : DB :=
  { db with peers :=
      db.peers.map (fun p =>
        if p.peer_id = peerId then { p with last_seen := now } else p) }

/-- Model of `getActivePeerCount` (index.ts): `SELECT COUNT(*) as count FROM peers
WHERE last_seen > ?` bound to `Date.now() - 5 * 60 * 1000`. -/
def getActivePeerCount (now : Int) (db : DB) : Nat :=
  db.peers.countP (fun p => decide (p.last_seen > now - 5 * 60 * 1000))

/-- Model of `cleanupInactivePeers` (index.ts): `DELETE FROM peers WHERE last_seen < ?`
bound to `Date.now() - 60 * 60 * 1000`. -/
def cleanupInactivePeers (now : Int) (db : DB) : DB :=
  { db with peers :=
      db.peers.filter (fun p => !decide (p.last_seen < now - 60 * 60 * 1000)) }

/-- The `INSERT INTO messages (peer_id, type, data, timestamp) VALUES
(?, ?, ?, ?)` of `handleSignalingMessage` (index.ts), bound to
`(peerId, type, JSON.stringify(data), Date.now())`. -/
def insertMessage (peerId : String) (type : MsgType) (data : String)
    (now : Int) (db : DB) : DB :=
  { db with
      messages := db.messages ++
        [{ id := db.nextId, peer_id := peerId, type := type, data := data,
           timestamp := now }],
      nextId := db.nextId + 1 }

/-- Model of `cleanupOldMessages` (index.ts): inside its own `try`/`catch` it runs
`DELETE FROM messages WHERE timestamp < ?` bound to
`Date.now() - 60 * 60 * 1000` and then `cleanupInactivePeers`; any storage
error is caught and logged, so the function never throws and the remaining
steps after the failing one are skipped. -/
def cleanupOldMessages (now : Int) (db : DB) (f : DbFaults) : DB :=
  if f.failDeleteOldMessages then db
  else
    let db1 : DB :=
      { db with messages :=
          db.messages.filter (fun m =>
            !decide (m.timestamp < now - 60 * 60 * 1000)) }
    if f.failCleanupPeers then db1
    else cleanupInactivePeers now db1

/-- Model of `handleSignalingJoin` (index.ts): `addPeer`, then `cleanupInactivePeers`,
then `getActivePeerCount`, then the JSON response
`{success: true, isInitiator: peerCount === 1, peerCount}`.  The function has
no `try`/`catch` of its own: a storage error in any of the three awaited calls
propagates to the caller; the `Except.error` value carries the database state
at the point of the throw (the failing statement itself changes nothing). -/
def handleSignalingJoin (peerId : String) (now : Int) (db : DB)
    (f : DbFaults) : Except DB (Response × DB) :=
  if f.failAddPeer then .error db
  else
    let db1 := addPeer peerId now db
    if f.failCleanupPeers then .error db1
    else
      let db2 := cleanupInactivePeers now db1
      if f.failCount then .error db2
      else
        let c := getActivePeerCount now db2
        .ok ({ status := 200, body := .joinOk (decide (c = 1)) c }, db2)

/-- Model of `handleSignalingMessage` (index.ts): inside its own `try`/`catch`, insert
the message row, then run `cleanupOldMessages` (which never throws), then
return `{success: true}`; a storage error of the insert is caught and answered
with status 500 `Database error`. -/
def handleSignalingMessage (type : MsgType) (peerId : String) (data : String)
    (now : Int) (db : DB) (f : DbFaults) : Response × DB :=
  if f.failInsert then ({ status := 500, body := .err "Database error" }, db)
  else
    let db1 := insertMessage peerId type data now db
    let db2 := cleanupOldMessages now db1 f
    ({ status := 200, body := .sendOk }, db2)

/-- The request body of `POST /signaling` as seen after `request.json()`:
either a parsed `{type, peerId, data}` envelope, or a body that fails to
parse (the `catch` of `handleSignaling`). -/
inductive ReqBody where
  | valid (type : String) (peerId : String) (data : String)
  | malformed
deriving DecidableEq, Repr

/-- A request to `/signaling`: HTTP method plus body. -/
structure SigRequest where
  method : String
  body : ReqBody
deriving DecidableEq, Repr

/-- Model of `handleSignaling` (index.ts): reject non-POST with 405; parse the
body — `await request.json()` is awaited inside the `try`, so a parse failure
is caught and answered 400 `Invalid JSON`; dispatch on `type`
(`join` / `offer` / `answer` / `candidate`, anything else 400
`Invalid message type`).  The join branch is `return handleSignalingJoin(...)`
WITHOUT `await`: returning the promise completes the `try` block before the
promise settles, so a storage rejection from the join bypasses the `catch`
entirely — the worker code produces no response of its own and the request
fails with an unhandled rejection (surfaced by the Workers runtime, not by
this code).  That is the `Except.error` case, carrying the database state the
already-executed statements left behind.  The message branch is likewise
un-awaited, but `handleSignalingMessage` catches internally and never
rejects. -/
def handleSignaling (req : SigRequest) (now : Int) (db : DB)
    (f : DbFaults) : Except DB (Response × DB) :=
  if req.method ≠ "POST" then
    .ok ({ status := 405, body := .err "Method not allowed" }, db)
  else
    match req.body with
    | .malformed => .ok ({ status := 400, body := .err "Invalid JSON" }, db)
    | .valid t peerId d =>
      if t = "join" then handleSignalingJoin peerId now db f
      else if t = "offer" then
        .ok (handleSignalingMessage .offer peerId d now db f)
      else if t = "answer" then
        .ok (handleSignalingMessage .answer peerId d now db f)
      else if t = "candidate" then
        .ok (handleSignalingMessage .candidate peerId d now db f)
      else .ok ({ status := 400, body := .err "Invalid message type" }, db)

/-- Order used by the delivery query's `ORDER BY timestamp ASC`. -/
def msgLe (a b : MessageOut) : Bool := decide (a.timestamp ≤ b.timestamp)

/-- The delivery query of `handleMessages` (index.ts):
`SELECT type, data, peer_id as fromPeerId, timestamp FROM messages WHERE
peer_id != ? AND timestamp > ? ORDER BY timestamp ASC` bound to
`(peerId, since)`. -/
def queryMessages (peerId : String) (since : Int) (db : DB) :
    List MessageOut :=
  List.mergeSort
    ((db.messages.filter (fun m =>
        decide (m.peer_id ≠ peerId ∧ m.timestamp > since))).map
      (fun m => { type := m.type, data := m.data, fromPeerId := m.peer_id,
                  timestamp := m.timestamp }))
    msgLe

/-- Model of `handleMessages` (index.ts): `peerId` and `since` come from the query
string (`since` defaults to 0 when absent); a missing `peerId` is answered
400 `Missing peerId` before any storage access.  Otherwise, inside
`try`/`catch`: `updatePeerLastSeen`, then the delivery query, then the JSON
response `{messages, timestamp: Date.now()}`; a storage error is answered
500 `Database error`. -/
def handleMessages (peerIdParam : Option String) (since : Int) (now : Int)
    (db : DB) (f : DbFaults) : Response × DB :=
  match peerIdParam with
  | none => ({ status := 400, body := .err "Missing peerId" }, db)
  | some peerId =>
    if f.failUpdateLastSeen then
      ({ status := 500, body := .err "Database error" }, db)
    else
      let db1 := updatePeerLastSeen peerId now db
      if f.failQuery then ({ status := 500, body := .err "Database error" }, db1)
      else ({ status := 200, body := .msgs (queryMessages peerId since db1) now },
            db1)

/-- Modelled from the spec: the repository's final session-opening join
handler is not among the `src/` snapshots of `index.ts` (the README documents
"Host Session Reset: When a host joins, all database tables are cleared" and a
`/turn-credentials` endpoint, neither of which appears in those snapshots).
Spec 4.1: on the session-opening join "the registry is reset: all Peer rows
except the joining one, and all Message rows, are deleted", applied as the
atomic clear-all-then-insert-self sequence of spec 5, followed by the same
sweep and count-based response as `handleSignalingJoin`. -/
def handleHostJoin (peerId : String) (now : Int) (db : DB) : Response × DB :=
  let cleared : DB := { peers := [], messages := [], nextId := db.nextId }
  let db1 := addPeer peerId now cleared
  let db2 := cleanupInactivePeers now db1
  let c := getActivePeerCount now db2
  ({ status := 200, body := .joinOk (decide (c = 1)) c }, db2)

end Relay

namespace HostApp

/-!
The host-side per-guest state machine of `public/host.js` (`class HostApp`).
`peerConnections` maps a guest id to its `RTCPeerConnection`, abstracted here
to whether `setRemoteDescription` has run and the list of ICE candidates added
(via `addIceCandidate`), in order.  `candidateQueues` maps a guest id to its
pending candidate queue.  Messages are processed one at a time, in delivery
order, by the `for (const message of data.messages)` loop of `startPolling`.
-/

/-- Abstraction of a per-guest `RTCPeerConnection` on the host: whether the
remote description has been set, and the candidates applied so far in order. -/
structure PeerCtx where
  remoteDescSet : Bool
  applied : List String
deriving DecidableEq, Repr

/-- The host's mutable state: the two `Map`s of `host.js`. -/
structure HostState where
  peerConnections : List (String × PeerCtx)
  candidateQueues : List (String × List String)
deriving DecidableEq, Repr

/-- A delivered signaling message as consumed by `HostApp.handleMessage`:
its `type`, sender (`fromPeerId`) and payload. -/
inductive HostMsg where
  | offer (fromPeerId : String) (sdp : String)
  | answer (fromPeerId : String) (sdp : String)
  | candidate (fromPeerId : String) (cand : String)
deriving DecidableEq, Repr

/-- Semantics of `Map.prototype.set`: replace the entry for `k`, or append a new one. -/
def setEntry (m : List (String × α)) (k : String) (v : α) :
    List (String × α) :=
  match m with
  | [] => [(k, v)]
  | e :: rest => if e.1 = k then (k, v) :: rest else e :: setEntry rest k v

/-- Model of `HostApp.processQueuedCandidates` (host.js): drain the guest's candidate
queue front-to-back, `addIceCandidate` each entry, leave the queue empty;
return immediately if there is no peer connection for the guest. -/
def processQueuedCandidates (g : String) (hs : HostState) : HostState :=
  match hs.peerConnections.lookup g with
  | none => hs
  | some ctx =>
    let q := (hs.candidateQueues.lookup g).getD []
    let ctx2 : PeerCtx := { ctx with applied := ctx.applied ++ q }
    { peerConnections := setEntry hs.peerConnections g ctx2,
      candidateQueues := setEntry hs.candidateQueues g [] }

/-- Model of `HostApp.handleMessage` (host.js).  On `offer`: `createPeerConnection`
(which stores a fresh connection and does `candidateQueues.set(guestId, [])`),
then `setRemoteDescription`, then `processQueuedCandidates` (the answer is
then created and sent back through the relay, which does not change this
state).  On `candidate`: apply immediately if the guest's connection exists
and its remote description is set; queue if the connection exists but the
remote description is not yet set; otherwise ignore the candidate
(`Ignoring ICE candidate ... - no peer connection yet`).  Other message types
fall through unhandled. -/
def handleMessage (msg : HostMsg) (hs : HostState) : HostState :=
  match msg with
  | .offer g _ =>
    let freshCtx : PeerCtx := { remoteDescSet := false, applied := [] }
    let hs1 : HostState :=
      { peerConnections := setEntry hs.peerConnections g freshCtx,
        candidateQueues := setEntry hs.candidateQueues g [] }
    let descCtx : PeerCtx := { remoteDescSet := true, applied := [] }
    let hs2 : HostState :=
      { hs1 with peerConnections := setEntry hs1.peerConnections g descCtx }
    processQueuedCandidates g hs2
  | .answer _ _ => hs
  | .candidate g c =>
    match hs.peerConnections.lookup g with
    | some ctx =>
      if ctx.remoteDescSet then
        let ctx2 : PeerCtx := { ctx with applied := ctx.applied ++ [c] }
        { hs with peerConnections := setEntry hs.peerConnections g ctx2 }
      else
        let q := (hs.candidateQueues.lookup g).getD []
        { hs with candidateQueues := setEntry hs.candidateQueues g (q ++ [c]) }
    | none => hs

/-- The polling loop's `for (const message of data.messages) await
this.handleMessage(message)`: process a delivered batch in order. -/
def runHost (msgs : List HostMsg) (hs : HostState) : HostState :=
  msgs.foldl (fun s m => handleMessage m s) hs

/-- The candidates applied to the guest's connection so far, in order
(`[]` when no connection context exists). -/
def appliedCandidates (g : String) (hs : HostState) : List String :=
  match hs.peerConnections.lookup g with
  | some ctx => ctx.applied
  | none => []

end HostApp

namespace Relay

/-- The empty database (a freshly created schema). -/
def dbEmpty : DB := ⟨[], [], 0⟩

/-- A small populated database used by concrete witnesses: one peer `A`
(seen at time 0) and one message from `A` at time 5. -/
def dbW : DB := ⟨[⟨"A", 0, 0⟩], [⟨0, "A", .offer, "x", 5⟩], 1⟩

/-- A database holding one message far older than the retention horizon. -/
def dbOldMsg : DB := ⟨[], [⟨0, "A", .offer, "s", 0⟩], 1⟩

/-- A run in which the `DELETE FROM peers WHERE last_seen < ?` statement
(`cleanupInactivePeers`) throws and everything else succeeds. -/
def faultCleanupPeers : DbFaults := ⟨false, true, false, false, false, false, false⟩

/-- A run in which the `DELETE FROM messages WHERE timestamp < ?` statement
(in `cleanupOldMessages`) throws and everything else succeeds. -/
def faultDeleteOldMessages : DbFaults :=
  ⟨false, false, false, false, true, false, false⟩

end Relay

namespace HostApp

/-- The host's initial state: both `Map`s empty. -/
def hs0 : HostState := ⟨[], []⟩

end HostApp

/-!  ## Shared lemmas about the relay handlers -/

namespace Relay

/-- A fault-free join runs `addPeer`, `cleanupInactivePeers` and
`getActivePeerCount` in sequence and answers with the count. -/
theorem join_noFaults_eq (pid : String) (now : Int) (db : DB) :
    handleSignalingJoin pid now db noFaults =
      .ok ({ status := 200,
             body := .joinOk
               (decide (getActivePeerCount now
                 (cleanupInactivePeers now (addPeer pid now db)) = 1))
               (getActivePeerCount now
                 (cleanupInactivePeers now (addPeer pid now db))) },
           cleanupInactivePeers now (addPeer pid now db)) := rfl

/-- The active-peer count observed by a join: one for the freshly upserted
joining row, plus the surviving other rows that are inside the five-minute
activity window. -/
theorem getActivePeerCount_after_join (pid : String) (now : Int) (db : DB) :
    getActivePeerCount now (cleanupInactivePeers now (addPeer pid now db)) =
      (db.peers.filter (fun p => decide (p.peer_id ≠ pid))).countP
        (fun p => decide (p.last_seen > now - 5 * 60 * 1000) &&
                  !decide (p.last_seen < now - 60 * 60 * 1000)) + 1 := by
  have hrowKeep : ¬ ((now : Int) < now - 60 * 60 * 1000) := by omega
  have hrowAct : (now : Int) > now - 5 * 60 * 1000 := by omega
  simp only [getActivePeerCount, cleanupInactivePeers, addPeer,
    List.filter_append, List.countP_append, List.countP_filter]
  congr 1
  simp [hrowKeep, hrowAct]

end Relay

/-!  ## Claim theorems -/

namespace Relay

/-- C7: for every request that is a protocol error — non-POST method on
`/signaling`, body not parseable as the envelope, unknown message type, or
`/messages` without a `peerId` — the endpoint answers with a 4xx/405 status
and hands back the database completely unchanged, whatever the fault state of
the storage layer. -/
theorem c7_protocol_errors_leave_state_unchanged
    (m ty pid d : String) (body : ReqBody) (since now : Int) (db : DB)
    (f : DbFaults) (hm : m ≠ "POST")
    (hty : ty ≠ "join" ∧ ty ≠ "offer" ∧ ty ≠ "answer" ∧ ty ≠ "candidate") :
    handleSignaling ⟨m, body⟩ now db f =
      .ok ({ status := 405, body := .err "Method not allowed" }, db) ∧
    handleSignaling ⟨"POST", .malformed⟩ now db f =
      .ok ({ status := 400, body := .err "Invalid JSON" }, db) ∧
    handleSignaling ⟨"POST", .valid ty pid d⟩ now db f =
      .ok ({ status := 400, body := .err "Invalid message type" }, db) ∧
    handleMessages none since now db f =
      ({ status := 400, body := .err "Missing peerId" }, db) := by
  obtain ⟨h1, h2, h3, h4⟩ := hty
  refine ⟨?_, rfl, ?_, rfl⟩
  · simp [handleSignaling, hm]
  · simp [handleSignaling, h1, h2, h3, h4]

/-- C7 witness: a GET request, a malformed body, the unknown type `ping` and a
`/messages` call without `peerId`, against the concrete store `dbW`. -/
theorem c7_witness :
    ("GET" : String) ≠ "POST" ∧
    (("ping" : String) ≠ "join" ∧ ("ping" : String) ≠ "offer" ∧
     ("ping" : String) ≠ "answer" ∧ ("ping" : String) ≠ "candidate") ∧
    (handleSignaling ⟨"GET", .malformed⟩ 9 dbW noFaults =
      .ok ({ status := 405, body := .err "Method not allowed" }, dbW) ∧
    handleSignaling ⟨"POST", .malformed⟩ 9 dbW noFaults =
      .ok ({ status := 400, body := .err "Invalid JSON" }, dbW) ∧
    handleSignaling ⟨"POST", .valid "ping" "p" "d"⟩ 9 dbW noFaults =
      .ok ({ status := 400, body := .err "Invalid message type" }, dbW) ∧
    handleMessages none 0 9 dbW noFaults =
      ({ status := 400, body := .err "Missing peerId" }, dbW)) :=
  ⟨by decide, by decide,
   c7_protocol_errors_leave_state_unchanged "GET" "ping" "p" "d" .malformed 0 9
     dbW noFaults (by decide) (by decide)⟩

/-- C5: message rows are append-only: two successive inserts — even by the
same sender at the same millisecond — append two distinct rows (their
autoincrement ids differ) and leave every previously stored row exactly as it
was, and the sweep removes rows only by age, leaving the survivors
unaltered. -/
theorem c5_messages_append_only (pid : String) (ty1 ty2 : MsgType)
    (d1 d2 : String) (t now2 : Int) (db : DB) :
    (insertMessage pid ty2 d2 t (insertMessage pid ty1 d1 t db)).messages =
      db.messages ++
        [{ id := db.nextId, peer_id := pid, type := ty1, data := d1,
           timestamp := t },
         { id := db.nextId + 1, peer_id := pid, type := ty2, data := d2,
           timestamp := t }] ∧
    ({ id := db.nextId, peer_id := pid, type := ty1, data := d1,
       timestamp := t } : Message) ≠
      { id := db.nextId + 1, peer_id := pid, type := ty2, data := d2,
        timestamp := t } ∧
    (cleanupOldMessages now2
        (insertMessage pid ty2 d2 t (insertMessage pid ty1 d1 t db))
        noFaults).messages =
      (insertMessage pid ty2 d2 t
          (insertMessage pid ty1 d1 t db)).messages.filter
        (fun m => !decide (m.timestamp < now2 - 60 * 60 * 1000)) := by
  refine ⟨by simp [insertMessage], ?_, rfl⟩
  intro h
  have := congrArg Message.id h
  simp only at this
  omega

/-- C8 counterexample: on the empty store, the join request that succeeds with
`{success, isInitiator, peerCount}` in a fault-free run instead fails when the
inactive-peer cleanup statement of its retention sweep throws: the rejection
of the un-awaited `handleSignalingJoin` promise bypasses `handleSignaling`'s
`catch`, so the worker code produces no success response — the sweeper failure
fails the triggering join request (with the already-applied upsert
retained). -/
theorem c8_counterexample :
    handleSignaling ⟨"POST", .valid "join" "H" ""⟩ 0 dbEmpty noFaults =
      .ok ({ status := 200, body := .joinOk true 1 },
           ⟨[⟨"H", 0, 0⟩], [], 0⟩) ∧
    handleSignaling ⟨"POST", .valid "join" "H" ""⟩ 0 dbEmpty
        faultCleanupPeers =
      .error ⟨[⟨"H", 0, 0⟩], [], 0⟩ :=
  ⟨by decide, by decide⟩

/-- C8 (amended): a storage error in the retention sweep is swallowed only on
the message-insert path — `cleanupOldMessages` catches it internally and the
insert still returns its normal success response; on the join path the same
failing `cleanupInactivePeers` statement rejects the promise of the
un-awaited `handleSignalingJoin`, which bypasses `handleSignaling`'s `catch`:
the worker code produces no response of its own and the join request fails
with an unhandled rejection (with the already-executed `addPeer` upsert
retained) instead of returning its success response. -/
theorem c8_sweep_error_isolation (pid d : String) (ty : MsgType) (now : Int)
    (db : DB) :
    (handleSignalingMessage ty pid d now db faultCleanupPeers).1 =
      { status := 200, body := .sendOk } ∧
    (handleSignalingMessage ty pid d now db faultDeleteOldMessages).1 =
      { status := 200, body := .sendOk } ∧
    handleSignalingJoin pid now db faultCleanupPeers =
      .error (addPeer pid now db) ∧
    handleSignaling ⟨"POST", .valid "join" pid d⟩ now db faultCleanupPeers =
      .error (addPeer pid now db) :=
  ⟨rfl, rfl, rfl, rfl⟩

/-- C9 counterexample: a join three hours in (now = 10800000) leaves the
message stored at timestamp 0 — far older than the one-hour horizon — in the
store: the sweep a join triggers deletes only inactive peers, never old
messages. -/
theorem c9_counterexample :
    ((0 : Int) < 10800000 - 60 * 60 * 1000) ∧
    handleSignalingJoin "H" 10800000 dbOldMsg noFaults =
      .ok ({ status := 200, body := .joinOk true 1 },
           ⟨[⟨"H", 10800000, 10800000⟩], [⟨0, "A", .offer, "s", 0⟩], 1⟩) :=
  ⟨by decide, by decide⟩

/-- C9 (amended): the sweep triggered by a message insert deletes exactly the
Message rows older than one hour and the Peer rows inactive for more than one
hour, leaving every younger row unaltered; the sweep triggered by a join
deletes exactly the inactive Peer rows but leaves the message store untouched,
so Message rows older than one hour survive joins. -/
theorem c9_sweep_deletes_by_age (pid d : String) (ty : MsgType) (now : Int)
    (db : DB) :
    ((handleSignalingMessage ty pid d now db noFaults).2.messages =
      (insertMessage pid ty d now db).messages.filter
        (fun m => !decide (m.timestamp < now - 60 * 60 * 1000)) ∧
     (handleSignalingMessage ty pid d now db noFaults).2.peers =
      db.peers.filter (fun p => !decide (p.last_seen < now - 60 * 60 * 1000))) ∧
    ∃ r, handleSignalingJoin pid now db noFaults =
      .ok (r, { peers := (addPeer pid now db).peers.filter
                  (fun p => !decide (p.last_seen < now - 60 * 60 * 1000)),
                messages := db.messages,
                nextId := db.nextId }) :=
  ⟨⟨rfl, rfl⟩, ⟨_, rfl⟩⟩

end Relay

namespace Relay

/-- C1: a session-opening host join resets the session: afterwards every Peer
row other than the joining peer's and every Message row have been deleted, so
any subsequent `/messages` poll — any requester, any watermark — observes zero
prior messages. -/
theorem c1_host_join_resets_session (pid req : String) (now t since : Int)
    (db : DB) :
    ((handleHostJoin pid now db).2.peers.filter
        (fun p => decide (p.peer_id ≠ pid))) = [] ∧
    (handleHostJoin pid now db).2.messages = [] ∧
    (handleMessages (some req) since t (handleHostJoin pid now db).2
        noFaults).1 =
      { status := 200, body := .msgs [] t } := by
  have h1 : ¬ ((now : Int) < now - 60 * 60 * 1000) := by omega
  have hp : (handleHostJoin pid now db).2.peers =
      [{ peer_id := pid, joined_at := now, last_seen := now }] := by
    simp [handleHostJoin, addPeer, cleanupInactivePeers, h1]
  have hm : (handleHostJoin pid now db).2.messages = [] := rfl
  refine ⟨?_, hm, ?_⟩
  · rw [hp]
    simp
  · simp [handleMessages, noFaults, queryMessages, updatePeerLastSeen, hm]

/-- C3 counterexample: host `H` opens the session at time 0 (reset join,
`peerCount = 1`, `isInitiator = true`); the next distinct peer `G` joins
400000 ms later with no intervening reset, yet — the host row being idle
longer than the 5-minute activity window — `G` also observes `peerCount = 1`
and `isInitiator = true` rather than `peerCount > 1` and
`isInitiator = false`. -/
theorem c3_counterexample :
    (handleHostJoin "H" 0 dbEmpty).1 =
      { status := 200, body := .joinOk true 1 } ∧
    handleSignalingJoin "G" 400000 (handleHostJoin "H" 0 dbEmpty).2 noFaults =
      .ok ({ status := 200, body := .joinOk true 1 },
           ⟨[⟨"H", 0, 0⟩, ⟨"G", 400000, 400000⟩], [], 0⟩) :=
  ⟨by decide, by decide⟩

/-- C3 (amended): every join response has the form
`{success, isInitiator, peerCount}` with `isInitiator` true iff
`peerCount = 1`; a session-opening host join reports `peerCount = 1` and
`isInitiator = true`; and the next distinct peer to join without an
intervening reset observes `peerCount > 1` and `isInitiator = false` provided
some other peer row is still inside the 5-minute activity window at the moment
of that join (without such a row the counting join reports the joiner alone,
as the counterexample shows). -/
theorem c3_join_responses (g h : String) (now now2 : Int) (db db2 : DB)
    (p : Peer) (hp : p ∈ db.peers) (hpid : p.peer_id ≠ g)
    (hactive : now - 5 * 60 * 1000 < p.last_seen) :
    (∀ pid t dbx, ∃ b c db', handleSignalingJoin pid t dbx noFaults =
        .ok ({ status := 200, body := .joinOk b c }, db') ∧
        (b = true ↔ c = 1)) ∧
    (handleHostJoin h now2 db2).1 =
      { status := 200, body := .joinOk true 1 } ∧
    (∃ c db', handleSignalingJoin g now db noFaults =
        .ok ({ status := 200, body := .joinOk false c }, db') ∧ 1 < c) := by
  refine ⟨?_, ?_, ?_⟩
  · intro pid t dbx
    exact ⟨_, _, _, join_noFaults_eq pid t dbx, by simp⟩
  · have h1 : ¬ ((now2 : Int) < now2 - 60 * 60 * 1000) := by omega
    have h2 : (now2 : Int) > now2 - 5 * 60 * 1000 := by omega
    simp [handleHostJoin, addPeer, cleanupInactivePeers, getActivePeerCount,
      h1, h2]
  · have hcount :
        0 < (db.peers.filter (fun q => decide (q.peer_id ≠ g))).countP
          (fun q => decide (q.last_seen > now - 5 * 60 * 1000) &&
                    !decide (q.last_seen < now - 60 * 60 * 1000)) := by
      rw [List.countP_pos_iff]
      refine ⟨p, List.mem_filter.mpr ⟨hp, by simpa using hpid⟩, ?_⟩
      simp only [Bool.and_eq_true, decide_eq_true_eq, Bool.not_eq_true',
        decide_eq_false_iff_not]
      omega
    have hc := getActivePeerCount_after_join g now db
    refine ⟨getActivePeerCount now (cleanupInactivePeers now (addPeer g now db)),
      cleanupInactivePeers now (addPeer g now db), ?_, by omega⟩
    rw [join_noFaults_eq]
    have : decide (getActivePeerCount now
        (cleanupInactivePeers now (addPeer g now db)) = 1) = false := by
      simp only [decide_eq_false_iff_not]
      omega
    rw [this]

/-- C3 witness: host `H` resets at time 0; the host row (last seen at 0) is
still inside the 5-minute window when guest `G` joins at time 100, so `G`
observes `peerCount > 1` and `isInitiator = false`. -/
theorem c3_witness :
    ((⟨"H", 0, 0⟩ : Peer) ∈ (⟨[⟨"H", 0, 0⟩], [], 0⟩ : DB).peers) ∧
    ("H" : String) ≠ "G" ∧
    ((100 : Int) - 5 * 60 * 1000 < 0) ∧
    ((∀ pid t dbx, ∃ b c db', handleSignalingJoin pid t dbx noFaults =
        .ok ({ status := 200, body := .joinOk b c }, db') ∧
        (b = true ↔ c = 1)) ∧
    (handleHostJoin "X" 7 dbW).1 =
      { status := 200, body := .joinOk true 1 } ∧
    (∃ c db', handleSignalingJoin "G" 100 (⟨[⟨"H", 0, 0⟩], [], 0⟩ : DB)
        noFaults =
        .ok ({ status := 200, body := .joinOk false c }, db') ∧ 1 < c)) :=
  ⟨by decide, by decide, by decide,
   c3_join_responses "G" "X" 100 7 ⟨[⟨"H", 0, 0⟩], [], 0⟩ dbW ⟨"H", 0, 0⟩
     (by decide) (by decide) (by decide)⟩

/-- C10: the join's peer count looks back only 5 minutes while peer rows are
retained for an hour: when every other peer row is idle for more than
5 minutes and at least one of them is younger than an hour, the joining peer
is reported alone (`peerCount = 1`, `isInitiator = true`) although that idle
row is still in the registry after the join completes. -/
theorem c10_initiator_despite_stale_rows (pid : String) (now : Int) (db : DB)
    (p : Peer) (hp : p ∈ db.peers) (hpid : p.peer_id ≠ pid)
    (hyoung : now - 60 * 60 * 1000 ≤ p.last_seen)
    (hall : ∀ q ∈ db.peers, q.peer_id ≠ pid →
      q.last_seen ≤ now - 5 * 60 * 1000) :
    ∃ db2, handleSignalingJoin pid now db noFaults =
        .ok ({ status := 200, body := .joinOk true 1 }, db2) ∧
      p ∈ db2.peers := by
  have hzero :
      (db.peers.filter (fun q => decide (q.peer_id ≠ pid))).countP
        (fun q => decide (q.last_seen > now - 5 * 60 * 1000) &&
                  !decide (q.last_seen < now - 60 * 60 * 1000)) = 0 := by
    rw [List.countP_eq_zero]
    intro a ha
    rw [List.mem_filter] at ha
    have hle := hall a ha.1 (by simpa using ha.2)
    simp only [Bool.and_eq_true, decide_eq_true_eq, Bool.not_eq_true',
      decide_eq_false_iff_not, not_and]
    intro hgt
    omega
  have hc := getActivePeerCount_after_join pid now db
  rw [hzero] at hc
  refine ⟨cleanupInactivePeers now (addPeer pid now db), ?_, ?_⟩
  · rw [join_noFaults_eq, hc]
    simp
  · simp only [cleanupInactivePeers, addPeer, List.mem_filter,
      List.mem_append]
    refine ⟨Or.inl ⟨hp, by simpa using hpid⟩, ?_⟩
    simp only [Bool.not_eq_true', decide_eq_false_iff_not]
    omega

/-- C10 witness: peer `A` last seen at time 0; `B` joins at time 400000
(6 minutes 40 seconds later): `A` is outside the 5-minute window but inside
the 1-hour retention horizon, so `B` is reported alone and initiator while
`A`'s row survives the join. -/
theorem c10_witness :
    ((⟨"A", 0, 0⟩ : Peer) ∈ (⟨[⟨"A", 0, 0⟩], [], 0⟩ : DB).peers) ∧
    ("A" : String) ≠ "B" ∧
    ((400000 : Int) - 60 * 60 * 1000 ≤ 0) ∧
    (∀ q ∈ (⟨[⟨"A", 0, 0⟩], [], 0⟩ : DB).peers, q.peer_id ≠ "B" →
      q.last_seen ≤ (400000 : Int) - 5 * 60 * 1000) ∧
    ∃ db2, handleSignalingJoin "B" 400000 (⟨[⟨"A", 0, 0⟩], [], 0⟩ : DB)
        noFaults =
        .ok ({ status := 200, body := .joinOk true 1 }, db2) ∧
      (⟨"A", 0, 0⟩ : Peer) ∈ db2.peers :=
  ⟨by decide, by decide, by decide, by decide,
   c10_initiator_despite_stale_rows "B" 400000 ⟨[⟨"A", 0, 0⟩], [], 0⟩
     ⟨"A", 0, 0⟩ (by decide) (by decide) (by decide) (by decide)⟩

end Relay

namespace Relay

/-- The comparison used by the delivery sort is transitive. -/
theorem msgLe_trans (a b c : MessageOut) (hab : msgLe a b) (hbc : msgLe b c) :
    msgLe a c := by
  simp only [msgLe, decide_eq_true_eq] at *
  omega

/-- The comparison used by the delivery sort is total. -/
theorem msgLe_total (a b : MessageOut) : msgLe a b || msgLe b a := by
  simp only [msgLe, Bool.or_eq_true, decide_eq_true_eq]
  omega

/-- C2: a fault-free `/messages` call returns exactly the stored messages
whose sender differs from the requester and whose timestamp is strictly
greater than the watermark (as a permutation of that filtered list), sorted
ascending by timestamp; in particular every returned message comes from a
sender other than the requester. -/
theorem c2_delivery_filter_sort (pid : String) (since now : Int) (db : DB) :
    ∃ out,
      handleMessages (some pid) since now db noFaults =
        ({ status := 200, body := .msgs out now },
         updatePeerLastSeen pid now db) ∧
      out.Perm ((db.messages.filter (fun m =>
          decide (m.peer_id ≠ pid ∧ m.timestamp > since))).map
        (fun m => { type := m.type, data := m.data, fromPeerId := m.peer_id,
                    timestamp := m.timestamp })) ∧
      out.Pairwise (fun a b => a.timestamp ≤ b.timestamp) ∧
      out.all (fun m => decide (m.fromPeerId ≠ pid)) = true := by
  refine ⟨queryMessages pid since (updatePeerLastSeen pid now db), rfl,
    List.mergeSort_perm _ _, ?_, ?_⟩
  · have hs := List.sorted_mergeSort msgLe_trans msgLe_total
      ((db.messages.filter (fun m =>
          decide (m.peer_id ≠ pid ∧ m.timestamp > since))).map
        (fun m => ({ type := m.type, data := m.data, fromPeerId := m.peer_id,
                     timestamp := m.timestamp } : MessageOut)))
    exact hs.imp (fun h => by simpa [msgLe] using h)
  · rw [List.all_eq_true]
    intro m hm
    rw [queryMessages, List.mem_mergeSort, List.mem_map] at hm
    obtain ⟨x, hx, rfl⟩ := hm
    rw [List.mem_filter] at hx
    simp only [decide_eq_true_eq] at hx ⊢
    exact hx.2.1

/-- C4: the delivery response's `timestamp` field is the server time at
response construction, and a message delivered in one poll window is not
delivered again by any later poll whose watermark is at least that response
time, whatever the store looks like by then — provided the delivered
message's own timestamp does not exceed the response time (server clocks do
not run backwards). -/
theorem c4_watermark_excludes_delivered (pid pid2 : String)
    (since since2 now now2 : Int) (db db2 : DB) (M : MessageOut)
    (hdel : M ∈ queryMessages pid since (updatePeerLastSeen pid now db))
    (hclock : M.timestamp ≤ now)
    (hwm : now ≤ since2) :
    (handleMessages (some pid) since now db noFaults).1 =
      { status := 200,
        body := .msgs (queryMessages pid since (updatePeerLastSeen pid now db))
          now } ∧
    (handleMessages (some pid2) since2 now2 db2 noFaults).1 =
      { status := 200,
        body := .msgs
          (queryMessages pid2 since2 (updatePeerLastSeen pid2 now2 db2))
          now2 } ∧
    M ∉ queryMessages pid2 since2 (updatePeerLastSeen pid2 now2 db2) := by
  refine ⟨rfl, rfl, ?_⟩
  intro hmem
  rw [queryMessages, List.mem_mergeSort, List.mem_map] at hmem
  obtain ⟨x, hx, hxM⟩ := hmem
  rw [List.mem_filter] at hx
  simp only [decide_eq_true_eq] at hx
  have : x.timestamp = M.timestamp := congrArg MessageOut.timestamp hxM
  omega

/-- C4 witness: the message from `A` with timestamp 5 is delivered to `B`
polling with watermark 0 at server time 10; a later poll with watermark 10
(on the same store) does not deliver it again. -/
theorem c4_witness :
    ((⟨.offer, "x", "A", 5⟩ : MessageOut) ∈
      queryMessages "B" 0 (updatePeerLastSeen "B" 10 dbW)) ∧
    ((5 : Int) ≤ 10) ∧ ((10 : Int) ≤ 10) ∧
    ((handleMessages (some "B") 0 10 dbW noFaults).1 =
      { status := 200,
        body := .msgs (queryMessages "B" 0 (updatePeerLastSeen "B" 10 dbW))
          10 } ∧
    (handleMessages (some "B") 10 20 dbW noFaults).1 =
      { status := 200,
        body := .msgs (queryMessages "B" 10 (updatePeerLastSeen "B" 20 dbW))
          20 } ∧
    (⟨.offer, "x", "A", 5⟩ : MessageOut) ∉
      queryMessages "B" 10 (updatePeerLastSeen "B" 20 dbW)) :=
  ⟨by rw [queryMessages, List.mem_mergeSort]; decide, by decide, by decide,
   c4_watermark_excludes_delivered "B" "B" 0 10 10 20 dbW dbW
     ⟨.offer, "x", "A", 5⟩
     (by rw [queryMessages, List.mem_mergeSort]; decide) (by decide)
     (by decide)⟩

end Relay

namespace HostApp

/-- After `Map.set`, looking the key up yields the stored value. -/
theorem lookup_setEntry_self {α : Type} (m : List (String × α)) (k : String)
    (v : α) : (setEntry m k v).lookup k = some v := by
  induction m with
  | nil => simp [setEntry]
  | cons e rest ih =>
    obtain ⟨ek, ev⟩ := e
    by_cases h : ek = k
    · simp [setEntry, h]
    · have hne : (k == ek) = false := by
        simp only [beq_eq_false_iff_ne, ne_eq]
        exact fun hk => h hk.symm
      simp only [setEntry, h, if_false]
      rw [List.lookup_cons]
      simp [hne, ih]

/-- Processing an offer from guest `g` leaves `g` with a connection whose
remote description is set and with no applied candidate, and with an empty
candidate queue — `createPeerConnection` re-created the queue empty just
before `processQueuedCandidates` flushed it. -/
theorem offer_sets_remote_empty_applied (g sdp : String) (hs : HostState) :
    (handleMessage (.offer g sdp) hs).peerConnections.lookup g =
      some ⟨true, []⟩ ∧
    (handleMessage (.offer g sdp) hs).candidateQueues.lookup g = some [] := by
  simp [handleMessage, processQueuedCandidates, lookup_setEntry_self]

/-- Once the remote description for `X` is set, every further candidate from
`X` is applied directly, in arrival order. -/
theorem runHost_candidates_after_remoteDesc (X : String) (cs : List String)
    (s : HostState) (a : List String)
    (h : s.peerConnections.lookup X = some ⟨true, a⟩) :
    appliedCandidates X (runHost (cs.map (HostMsg.candidate X)) s) =
      a ++ cs := by
  induction cs generalizing s a with
  | nil => simp [runHost, appliedCandidates, h]
  | cons c cs ih =>
    have hstep : handleMessage (.candidate X c) s =
        { s with peerConnections :=
            setEntry s.peerConnections X ⟨true, a ++ [c]⟩ } := by
      simp [handleMessage, h]
    calc appliedCandidates X (runHost ((c :: cs).map (HostMsg.candidate X)) s)
        = appliedCandidates X (runHost (cs.map (HostMsg.candidate X))
            (handleMessage (.candidate X c) s)) := rfl
      _ = (a ++ [c]) ++ cs := by
            rw [hstep]; exact ih _ _ (lookup_setEntry_self _ _ _)
      _ = a ++ (c :: cs) := by simp

/-- While no connection context exists for `X`, candidates from `X` are
ignored: they change nothing at all (in particular they are not queued). -/
theorem runHost_candidates_dropped (X : String) (cs : List String)
    (s : HostState) (h : s.peerConnections.lookup X = none) :
    runHost (cs.map (HostMsg.candidate X)) s = s := by
  induction cs with
  | nil => rfl
  | cons c cs ih =>
    have hstep : handleMessage (.candidate X c) s = s := by
      simp [handleMessage, h]
    calc runHost ((c :: cs).map (HostMsg.candidate X)) s
        = runHost (cs.map (HostMsg.candidate X))
            (handleMessage (.candidate X c) s) := rfl
      _ = s := by rw [hstep]; exact ih

/-- C6 counterexample: candidates C1, C2, C3 delivered for guest `X` before
`X`'s offer is processed are discarded (no peer connection exists yet for
`X`), so after the offer and one further candidate C4, only C4 has been
applied to `X`'s connection — not C1, C2, C3, C4 in order. -/
theorem c6_counterexample :
    appliedCandidates "X"
      (runHost [.candidate "X" "C1", .candidate "X" "C2", .candidate "X" "C3",
                .offer "X" "s", .candidate "X" "C4"] hs0) = ["C4"] ∧
    (["C4"] : List String) ≠ ["C1", "C2", "C3", "C4"] :=
  ⟨by decide, by decide⟩

/-- C6 (amended): on the host, a candidate for remote peer `X` delivered
before `X`'s offer is processed is discarded, not queued — no connection
context exists yet, and the offer handler in any case re-creates `X`'s
candidate queue empty before flushing it; consequently exactly the candidates
arriving after the offer is processed are applied to `X`'s connection, in
arrival order. -/
theorem c6_candidates_before_offer_dropped (X sdp : String)
    (pre post : List String) (hs : HostState)
    (hnoctx : hs.peerConnections.lookup X = none) :
    runHost (pre.map (HostMsg.candidate X)) hs = hs ∧
    appliedCandidates X
      (runHost (post.map (HostMsg.candidate X))
        (handleMessage (.offer X sdp)
          (runHost (pre.map (HostMsg.candidate X)) hs))) = post := by
  have hdrop := runHost_candidates_dropped X pre hs hnoctx
  refine ⟨hdrop, ?_⟩
  rw [hdrop]
  have := runHost_candidates_after_remoteDesc X post
    (handleMessage (.offer X sdp) hs) []
    (offer_sets_remote_empty_applied X sdp hs).1
  simpa using this

/-- C6 witness: from the empty host state, candidates C1, C2 before `X`'s
offer change nothing, and after the offer only the later candidate C4 is
applied. -/
theorem c6_witness :
    (hs0.peerConnections.lookup "X" = none) ∧
    (runHost (["C1", "C2"].map (HostMsg.candidate "X")) hs0 = hs0 ∧
     appliedCandidates "X"
       (runHost (["C4"].map (HostMsg.candidate "X"))
         (handleMessage (.offer "X" "s")
           (runHost (["C1", "C2"].map (HostMsg.candidate "X")) hs0))) =
       ["C4"]) :=
  ⟨by decide,
   c6_candidates_before_offer_dropped "X" "s" ["C1", "C2"] ["C4"] hs0
     (by decide)⟩

end HostApp
